import Mathlib

/-!
Verification of the grid-sampling satellite-image downloader
(src/main.py) against its natural-language specification.

The Python source is shallowly embedded below.  Latitudes, longitudes
and metric distances are modelled as rationals; the external geodesic
destination primitive (geopy geodesic(meters=d).destination(p, bearing))
is abstracted as a function parameter `dest : GeoPoint -> Q -> Q -> GeoPoint`
taking the point, the bearing in degrees and the distance in meters.
Side effects (directory creation, logging, process exit, file writes)
are modelled as explicit effect traces or filesystem states.
-/

/-- A geographic point: latitude and longitude in degrees. -/
structure GeoPoint where
  lat : ℚ
  lon : ℚ
deriving DecidableEq, Repr

/-- The Geodesic Projector of the spec, embedded from src/main.py lines
117-118: first travel `east_m` meters at bearing 90 (due east) from the
origin, then `north_m` meters at bearing 0 (due north) from the
intermediate point.  The geodesic primitive `dest` is abstract. -/
def project (dest : GeoPoint → ℚ → ℚ → GeoPoint) (origin : GeoPoint)
    (east_m north_m : ℚ) : GeoPoint :=
  dest (dest origin 90 east_m) 0 north_m

/-- The alternative composition order (north first, then east), stated
from the spec words only, to contrast with `project`. -/
def project_north_then_east (dest : GeoPoint → ℚ → ℚ → GeoPoint)
    (origin : GeoPoint) (east_m north_m : ℚ) : GeoPoint :=
  dest (dest origin 0 north_m) 90 east_m

/-- A concrete destination function used only as a witness instance: it
moves latitude by the travelled distance on bearing 0 and moves
longitude by a latitude-dependent amount on any other bearing (so the
east step depends on the current latitude, as on a real ellipsoid). -/
def destModel (p : GeoPoint) (bearing d : ℚ) : GeoPoint :=
  if bearing = 0 then ⟨p.lat + d, p.lon⟩ else ⟨p.lat, p.lon + d * (1 + p.lat)⟩

/-- Eastward loop offset, src/main.py line 113: distance_east = y * 2 * buffer_radius. -/
def distance_east (y : ℕ) (buffer_radius : ℚ) : ℚ := (y : ℚ) * 2 * buffer_radius

/-- Northward loop offset, src/main.py line 114: distance_north = x * 2 * buffer_radius. -/
def distance_north (x : ℕ) (buffer_radius : ℚ) : ℚ := (x : ℚ) * 2 * buffer_radius

/-- The grid double loop of download_satellite_images (src/main.py lines
110-126): x over rows (outer), y over columns (inner); each cell (x, y)
is paired with the projected center. -/
def enumerate_cells (dest : GeoPoint → ℚ → ℚ → GeoPoint) (origin : GeoPoint)
    (buffer_radius : ℚ) (num_rows num_columns : ℕ) :
    List ((ℕ × ℕ) × GeoPoint) :=
  (List.range num_rows).flatMap fun x =>
    (List.range num_columns).map fun y =>
      ((x, y), project dest origin (distance_east y buffer_radius)
        (distance_north x buffer_radius))

/-- Row count, src/main.py line 102: num_rows = int(area_height / buffer_radius). -/
def num_rows (area_height buffer_radius : ℚ) : ℕ :=
  ⌊area_height / buffer_radius⌋.toNat

/-- Column count, src/main.py line 103: num_columns = int(area_length / buffer_radius). -/
def num_columns (area_length buffer_radius : ℚ) : ℕ :=
  ⌊area_length / buffer_radius⌋.toNat

/-- Output folder, src/main.py line 83: out/size{buffer_radius}_res{scale}.
The Python str() rendering of the numeric parameters is abstracted: the
folder is built from the rendered strings. -/
def out_folder (buffer_radius scale : String) : String :=
  "out/size" ++ buffer_radius ++ "_res" ++ scale

/-- Persisted tile path, src/main.py line 87:
{out_folder}/naip_{x}_{y}__{latitude}_{longitude}.tif. -/
def output_path (x y latitude longitude buffer_radius scale : String) : String :=
  out_folder buffer_radius scale ++ "/naip_" ++ x ++ "_" ++ y ++ "__" ++
    latitude ++ "_" ++ longitude ++ ".tif"

/-- UAV output folder, src/main.py line 163: out_uav/size{buffer_radius}_res{scale}. -/
def out_uav_folder (buffer_radius scale : String) : String :=
  "out_uav/size" ++ buffer_radius ++ "_res" ++ scale

/-- A model filesystem: a set of existing directories and an association
list from paths to file contents (byte lists); the first binding for a
path is its current content. -/
structure FS where
  dirs : List String
  files : List (String × List ℕ)
deriving DecidableEq, Repr

/-- Look up the current content stored at a path. -/
def FS.lookup (fs : FS) (p : String) : Option (List ℕ) :=
  (fs.files.find? fun e => e.1 == p).map Prod.snd

/-- Create a directory only if it does not exist yet, src/main.py lines
84-85: if not os.path.exists(out_folder): os.makedirs(out_folder). -/
def FS.makeDirsIfAbsent (fs : FS) (d : String) : FS :=
  if d ∈ fs.dirs then fs else ⟨d :: fs.dirs, fs.files⟩

/-- Open a path in write mode and write the payload, src/main.py lines
88-89: any previous content at the path is replaced. -/
def FS.write (fs : FS) (p : String) (content : List ℕ) : FS :=
  ⟨fs.dirs, (p, content) :: fs.files.filter fun e => e.1 ≠ p⟩

/-- The persistence step of download_image, src/main.py lines 83-89:
derive the folder, create it if absent, derive the path, write the
payload; returns the path together with the new filesystem state. -/
def store (fs : FS) (x y latitude longitude buffer_radius scale : String)
    (payload : List ℕ) : String × FS :=
  let folder := out_folder buffer_radius scale
  let fs1 := fs.makeDirsIfAbsent folder
  let path := output_path x y latitude longitude buffer_radius scale
  (path, fs1.write path payload)

/-- Observable side effects of the script, used to model control flow. -/
inductive Effect where
  | log (msg : String)
  | exitProcess (code : Int)
  | httpGet (url : String)
  | makeDirs (path : String)
  | writeFile (path : String)
  | cropBorders (path : String)
  | processFile (path : String)
deriving DecidableEq, Repr

/-- Effect trace of download_image from the getDownloadURL call on,
src/main.py lines 68-94.  `urlResult` is the outcome of the provider
call image.getDownloadURL: an EEException message on the left, the
download URL on the right.  On the exception the script prints the
exception and the advice and calls exit(-1); otherwise it downloads,
stores and crops. -/
def download_image (urlResult : Except String String)
    (x y latitude longitude buffer_radius scale : String) : List Effect :=
  match urlResult with
  | .error e =>
      [.log e,
       .log ("Try to either increase scale (now " ++ scale ++
         ") or decrease buffer_radius (now " ++ buffer_radius ++ ")"),
       .exitProcess (-1)]
  | .ok url =>
      [.httpGet url,
       .makeDirs (out_folder buffer_radius scale),
       .writeFile (output_path x y latitude longitude buffer_radius scale),
       .log ("Image downloaded and saved as " ++
         output_path x y latitude longitude buffer_radius scale),
       .cropBorders (output_path x y latitude longitude buffer_radius scale)]

/-- Effect trace of create_random_uav_images, src/main.py lines 161-189.
`scale` is the numeric value tested against 0.6; `scaleStr` and
`bufferRadiusStr` are its rendered forms used in the folder names;
`files` is the list of file names found by os.walk under out_folder. -/
def create_random_uav_images (scale : ℚ) (scaleStr bufferRadiusStr : String)
    (files : List String) : List Effect :=
  Effect.makeDirs (out_uav_folder bufferRadiusStr scaleStr) ::
    if scale ≠ 3 / 5 then
      [.log ("For this task, please use scale=0.6"), .exitProcess (-1)]
    else
      files.flatMap fun f => [.processFile f]

/-- Modelled from the spec: one candidate draw of the Sample Planner
(spec section 4.3, absent from src/main.py): integer east/north offsets,
an integer rotation and a resolution candidate. -/
structure Draw where
  east : ℤ
  north : ℤ
  rotation : ℕ
  res : ℚ
deriving DecidableEq, Repr

/-- Modelled from the spec: the adjusted radius of a draw (spec 4.3.c-d),
nominal_radius minus the Euclidean norm of the (east, north) offset. -/
noncomputable def adjusted_radius (nominal_radius : ℚ) (d : Draw) : ℝ :=
  (nominal_radius : ℝ) - Real.sqrt ((d.east : ℝ) ^ 2 + (d.north : ℝ) ^ 2)

/-- Modelled from the spec: the acceptance test of the Sample Planner
(spec 4.3.f), decided over the rationals by comparing the squared norm
with the squared slack, which is equivalent to the adjusted-radius test
(see accept_iff below): accept unless adjusted_radius < 300, or
adjusted_radius < 500 with resolution at least 3. -/
def accept (nominal_radius : ℚ) (d : Draw) : Bool :=
  (decide (0 ≤ nominal_radius - 300) &&
      decide ((d.east : ℚ) ^ 2 + (d.north : ℚ) ^ 2 ≤ (nominal_radius - 300) ^ 2)) &&
    ((decide (0 ≤ nominal_radius - 500) &&
        decide ((d.east : ℚ) ^ 2 + (d.north : ℚ) ^ 2 ≤ (nominal_radius - 500) ^ 2)) ||
      decide (d.res < 3))

/-- Modelled from the spec: the rejection-sampling loop of the Sample
Planner (spec 4.3), run against an explicit stream of draws: keep the
draws that pass the acceptance test until `count` are accepted; none if
the stream is exhausted first. -/
def plan_samples (nominal_radius : ℚ) : List Draw → ℕ → Option (List Draw)
  | _, 0 => some []
  | [], _ + 1 => none
  | d :: ds, k + 1 =>
      if accept nominal_radius d then
        (plan_samples nominal_radius ds k).map (d :: ·)
      else
        plan_samples nominal_radius ds (k + 1)

/-- Does the pattern stand at the head of the string (as character lists)? -/
def leadsWith : List Char → List Char → Bool
  | [], _ => true
  | _ :: _, [] => false
  | p :: ps, s :: ss => decide (p = s) && leadsWith ps ss

/-- Does the pattern occur anywhere in the string (as character lists)? -/
def occursIn (pat : List Char) : List Char → Bool
  | [] => leadsWith pat []
  | s :: ss => leadsWith pat (s :: ss) || occursIn pat ss

/-- The text before the first occurrence of the pattern: the head of the
Python list s.split(pat). -/
def beforeFirst (pat : List Char) : List Char → List Char
  | [] => []
  | s :: ss => if leadsWith pat (s :: ss) then [] else s :: beforeFirst pat ss

/-- Python single-character str.split: cut the string at every
occurrence of the separator, keeping empty pieces. -/
def splitChar (sep : Char) : List Char → List (List Char)
  | [] => [[]]
  | s :: ss =>
      match splitChar sep ss with
      | [] => [[]]
      | h :: t => if s = sep then [] :: h :: t else (s :: h) :: t

/-- The base name written at src/main.py line 87:
naip_{x}_{y}__{latitude}_{longitude}.tif, over character lists. -/
def naip_filename (x y latitude longitude : List Char) : List Char :=
  "naip".toList ++
    ('_' :: (x ++ ('_' :: (y ++ ('_' :: ('_' :: (latitude ++
      ('_' :: (longitude ++ ".tif".toList)))))))))

/-- The filename parsing of create_random_uav_images, src/main.py lines
173-177: split on underscores, take parts 1, 2 and 4, and part 5 up to
the first occurrence of .tif; none when an index is out of range, as
the Python indexing would raise. -/
def parse_tile_name (name : List Char) :
    Option (List Char × List Char × List Char × List Char) :=
  let parts := splitChar '_' name
  match parts[1]?, parts[2]?, parts[4]?, parts[5]? with
  | some x, some y, some latitude, some p5 =>
      some (x, y, latitude, beforeFirst ".tif".toList p5)
  | _, _, _, _ => none

theorem FS_write_lookup (fs : FS) (p : String) (c : List ℕ) :
    (fs.write p c).lookup p = some c := by
  simp [FS.write, FS.lookup, List.find?]

theorem FS_write_write (fs : FS) (p : String) (c cNew : List ℕ) :
    (fs.write p c).write p cNew = fs.write p cNew := by
  simp [FS.write, List.filter_filter]

theorem FS_mem_mkdir (fs : FS) (d : String) : d ∈ (fs.makeDirsIfAbsent d).dirs := by
  by_cases h : d ∈ fs.dirs <;> simp [FS.makeDirsIfAbsent, h]

theorem FS_write_dirs (fs : FS) (p : String) (c : List ℕ) :
    (fs.write p c).dirs = fs.dirs := rfl

theorem mem_enumerate_cells (dest : GeoPoint → ℚ → ℚ → GeoPoint) (origin : GeoPoint)
    (buffer_radius : ℚ) (nr nc : ℕ) (x y : ℕ) (c : GeoPoint) :
    ((x, y), c) ∈ enumerate_cells dest origin buffer_radius nr nc ↔
      x < nr ∧ y < nc ∧
        c = project dest origin (distance_east y buffer_radius)
          (distance_north x buffer_radius) := by
  simp only [enumerate_cells, List.mem_flatMap, List.mem_map, List.mem_range]
  constructor
  · rintro ⟨a, ha, b, hb, heq⟩
    obtain ⟨h1, h2⟩ := Prod.mk.injEq .. ▸ heq
    cases heq
    exact ⟨ha, hb, rfl⟩
  · rintro ⟨hx, hy, rfl⟩
    exact ⟨x, hx, y, hy, rfl⟩

theorem length_enumerate_cells (dest : GeoPoint → ℚ → ℚ → GeoPoint) (origin : GeoPoint)
    (buffer_radius : ℚ) (nr nc : ℕ) :
    (enumerate_cells dest origin buffer_radius nr nc).length = nr * nc := by
  simp [enumerate_cells, Function.comp_def, List.length_map, List.length_range,
    List.map_const', List.sum_replicate, smul_eq_mul]

theorem two_le_num_rows (area_height buffer_radius : ℚ) (hbr : 0 < buffer_radius)
    (hh : 2 * buffer_radius ≤ area_height) : 2 ≤ num_rows area_height buffer_radius := by
  have h2 : (2 : ℤ) ≤ ⌊area_height / buffer_radius⌋ := by
    rw [Int.le_floor]
    push_cast
    rw [le_div_iff₀ hbr]
    linarith
  have := Int.toNat_le_toNat h2
  simpa [num_rows] using this

theorem one_le_num_columns (area_length buffer_radius : ℚ) (hbr : 0 < buffer_radius)
    (hl : buffer_radius ≤ area_length) : 1 ≤ num_columns area_length buffer_radius := by
  have h1 : (1 : ℤ) ≤ ⌊area_length / buffer_radius⌋ := by
    rw [Int.le_floor]
    push_cast
    rw [le_div_iff₀ hbr]
    linarith
  have := Int.toNat_le_toNat h1
  simpa [num_columns] using this

theorem le_adjusted_iff (nominal t : ℚ) (d : Draw) :
    ((t : ℚ) : ℝ) ≤ adjusted_radius nominal d ↔
      0 ≤ nominal - t ∧ (d.east : ℚ) ^ 2 + (d.north : ℚ) ^ 2 ≤ (nominal - t) ^ 2 := by
  unfold adjusted_radius
  constructor
  · intro h
    have hs : Real.sqrt ((d.east : ℝ) ^ 2 + (d.north : ℝ) ^ 2) ≤ (nominal : ℝ) - (t : ℝ) := by
      linarith
    rw [Real.sqrt_le_iff] at hs
    refine ⟨by exact_mod_cast hs.1, by exact_mod_cast hs.2⟩
  · rintro ⟨h1, h2⟩
    have hs : Real.sqrt ((d.east : ℝ) ^ 2 + (d.north : ℝ) ^ 2) ≤ (nominal : ℝ) - (t : ℝ) := by
      rw [Real.sqrt_le_iff]
      exact ⟨by exact_mod_cast h1, by exact_mod_cast h2⟩
    linarith

theorem accept_iff (nominal : ℚ) (d : Draw) :
    accept nominal d = true ↔
      (300 : ℝ) ≤ adjusted_radius nominal d ∧
        ¬(adjusted_radius nominal d < 500 ∧ (3 : ℚ) ≤ d.res) := by
  have h300 := le_adjusted_iff nominal 300 d
  have h500 := le_adjusted_iff nominal 500 d
  push_cast at h300 h500
  simp only [accept, Bool.and_eq_true, Bool.or_eq_true, decide_eq_true_eq]
  rw [not_and_or, not_lt, not_le, ← h300, ← h500]

theorem plan_samples_sound (nominal : ℚ) :
    ∀ (draws : List Draw) (count : ℕ) (reqs : List Draw),
      plan_samples nominal draws count = some reqs →
      reqs.length = count ∧ ∀ d ∈ reqs, accept nominal d = true := by
  intro draws
  induction draws with
  | nil =>
    intro count reqs h
    cases count with
    | zero =>
      simp only [plan_samples, Option.some.injEq] at h
      subst h
      simp
    | succ k => simp [plan_samples] at h
  | cons d ds ih =>
    intro count reqs h
    cases count with
    | zero =>
      simp only [plan_samples, Option.some.injEq] at h
      subst h
      simp
    | succ k =>
      simp only [plan_samples] at h
      by_cases hacc : accept nominal d
      · rw [if_pos hacc] at h
        cases hps : plan_samples nominal ds k with
        | none => rw [hps] at h; simp at h
        | some rs =>
          rw [hps] at h
          simp only [Option.map_some', Option.some.injEq] at h
          obtain ⟨hlen, hall⟩ := ih k rs hps
          subst h
          refine ⟨by simp [hlen], ?_⟩
          intro e he
          rcases List.mem_cons.mp he with he | he
          · subst he; exact hacc
          · exact hall e he
      · rw [if_neg hacc] at h
        exact ih (k + 1) reqs h

theorem splitChar_ne_nil (sep : Char) (s : List Char) : splitChar sep s ≠ [] := by
  induction s with
  | nil => simp [splitChar]
  | cons a ss ih =>
    simp only [splitChar]
    cases h : splitChar sep ss with
    | nil => simp
    | cons hd tl => by_cases hc : a = sep <;> simp [hc]

theorem splitChar_sep_free (sep : Char) (s : List Char) (h : sep ∉ s) :
    splitChar sep s = [s] := by
  induction s with
  | nil => rfl
  | cons a ss ih =>
    have hns : sep ∉ ss := fun hmem => h (List.mem_cons_of_mem _ hmem)
    have ha : a ≠ sep := fun he => h (by simp [he])
    simp only [splitChar, ih hns]
    simp [ha]

theorem splitChar_cons_sep (sep : Char) (ys : List Char) :
    splitChar sep (sep :: ys) = [] :: splitChar sep ys := by
  simp only [splitChar]
  cases h : splitChar sep ys with
  | nil => exact absurd h (splitChar_ne_nil sep ys)
  | cons hd tl => simp

theorem splitChar_append (sep : Char) (xs ys : List Char) (h : sep ∉ xs) :
    splitChar sep (xs ++ sep :: ys) = xs :: splitChar sep ys := by
  induction xs with
  | nil => simp [splitChar_cons_sep]
  | cons a xs ih =>
    have hns : sep ∉ xs := fun hmem => h (List.mem_cons_of_mem _ hmem)
    have ha : a ≠ sep := fun he => h (by simp [he])
    simp only [List.cons_append, splitChar, List.append_eq]
    rw [ih hns]
    simp [ha]

theorem split_naip (x y latitude longitude : List Char)
    (hx : '_' ∉ x) (hy : '_' ∉ y) (hlat : '_' ∉ latitude) (hlon : '_' ∉ longitude) :
    splitChar '_' (naip_filename x y latitude longitude) =
      ["naip".toList, x, y, [], latitude, longitude ++ ".tif".toList] := by
  have hnaip : '_' ∉ "naip".toList := by decide
  have hlontif : '_' ∉ longitude ++ ".tif".toList := by
    simp only [List.mem_append]
    rintro (hmem | hmem)
    · exact hlon hmem
    · revert hmem; decide
  unfold naip_filename
  rw [splitChar_append _ _ _ hnaip, splitChar_append _ _ _ hx,
    splitChar_append _ _ _ hy, splitChar_cons_sep,
    splitChar_append _ _ _ hlat, splitChar_sep_free _ _ hlontif]

theorem occursIn_cons_false (pat : List Char) (a : Char) (rest : List Char)
    (h : occursIn pat (a :: rest) = false) :
    leadsWith pat (a :: rest) = false ∧ occursIn pat rest = false := by
  simp only [occursIn, Bool.or_eq_false_iff] at h
  exact h

theorem beforeFirst_tif (longitude : List Char)
    (h : occursIn ".tif".toList longitude = false) :
    beforeFirst ".tif".toList (longitude ++ ".tif".toList) = longitude := by
  induction longitude with
  | nil => rfl
  | cons a rest ih =>
    obtain ⟨hlead, hocc⟩ := occursIn_cons_false _ a rest h
    have hlead2 : leadsWith ".tif".toList ((a :: rest) ++ ".tif".toList) = false := by
      match rest with
      | [] => simp [leadsWith]
      | [b] => simp [leadsWith]
      | [b, c] => simp [leadsWith]
      | b :: c :: d :: rest2 =>
        simp only [leadsWith, List.cons_append] at hlead ⊢
        exact hlead
    simp only [List.cons_append] at hlead2
    simp only [List.cons_append, beforeFirst, List.append_eq, hlead2, Bool.false_eq_true,
      if_false]
    rw [ih hocc]

/-- Claim C1, counterexample: the claim says a provider-signaled
rejection is never fatal and never terminates the run, but at a concrete
rejected request the effect trace of download_image contains a process
exit with code -1 (src/main.py line 77). -/
theorem claim_C1_counterexample :
    Effect.exitProcess (-1) ∈
      download_image (Except.error ("Total request size must be less than the limit"))
        "0" "0" "37.9" "-91.7" "2000" "3" := by
  simp [download_image]

/-- Claim C1 as amended: on every provider-signaled rejection,
download_image logs the rejection and the parameter advice and then
terminates the whole process with exit code -1; it performs no resample,
no download and no store. -/
theorem claim_C1 (e x y latitude longitude buffer_radius scale : String) :
    Effect.log e ∈ download_image (Except.error e) x y latitude longitude buffer_radius scale ∧
      (download_image (Except.error e) x y latitude longitude buffer_radius scale).getLast? =
        some (Effect.exitProcess (-1)) ∧
      ∀ p, Effect.writeFile p ∉
          download_image (Except.error e) x y latitude longitude buffer_radius scale ∧
        Effect.httpGet p ∉
          download_image (Except.error e) x y latitude longitude buffer_radius scale := by
  simp [download_image]

/-- Claim C2, counterexample: with cell (2,5), center (1.0, 2.0),
radius 300, resolution 0.6, the stored path is not the claimed
dataset/2_5__1.0_2.0/naip_br300_s0.6_r45.tif. -/
theorem claim_C2_counterexample :
    (store ⟨[], []⟩ "2" "5" "1.0" "2.0" "300" "0.6" []).1 ≠
      "dataset/2_5__1.0_2.0/naip_br300_s0.6_r45.tif" := by decide

/-- Claim C2 as amended: the persisted path is a pure function of
(cell, center, buffer_radius, scale) of the form
out/size(buffer_radius)_res(scale)/naip_(x)_(y)__(lat)_(lon).tif, with
the rotation not encoded at all; in particular store() with cell (2,5),
center (1.0, 2.0), radius 300, resolution 0.6 yields
out/size300_res0.6/naip_2_5__1.0_2.0.tif whatever the prior filesystem
state and the payload. -/
theorem claim_C2 (fs : FS) (payload : List ℕ) :
    (store fs "2" "5" "1.0" "2.0" "300" "0.6" payload).1 =
      "out/size300_res0.6/naip_2_5__1.0_2.0.tif" := rfl

/-- Claim C3: for cell_side_m > 0 and any count, a completed run of the
Sample Planner (modelled from the spec over an explicit draw stream)
yields exactly count samples, each with adjusted radius at least 300 and
never an adjusted radius under 500 combined with resolution at least 3,
where the adjusted radius is cell_side_m/2 minus the Euclidean norm of
the drawn offset. -/
theorem claim_C3 (cell_side : ℚ) (hcs : 0 < cell_side) (draws : List Draw) (count : ℕ)
    (reqs : List Draw)
    (hrun : plan_samples (cell_side / 2) draws count = some reqs) :
    reqs.length = count ∧
      ∀ d ∈ reqs, (300 : ℝ) ≤ adjusted_radius (cell_side / 2) d ∧
        ¬(adjusted_radius (cell_side / 2) d < 500 ∧ (3 : ℚ) ≤ d.res) := by
  obtain ⟨hlen, hall⟩ := plan_samples_sound (cell_side / 2) draws count reqs hrun
  exact ⟨hlen, fun d hd => (accept_iff (cell_side / 2) d).mp (hall d hd)⟩

/-- Witness for claim C3 at cell_side_m = 2000 with a single accepted
central draw. -/
theorem claim_C3_witness :
    ([(⟨0, 0, 45, 3 / 5⟩ : Draw)]).length = 1 ∧
      ∀ d ∈ [(⟨0, 0, 45, 3 / 5⟩ : Draw)],
        (300 : ℝ) ≤ adjusted_radius ((2000 : ℚ) / 2) d ∧
          ¬(adjusted_radius ((2000 : ℚ) / 2) d < 500 ∧ (3 : ℚ) ≤ d.res) :=
  claim_C3 2000 (by norm_num) [⟨0, 0, 45, 3 / 5⟩] 1 [⟨0, 0, 45, 3 / 5⟩] (by
    norm_num [plan_samples, accept])

/-- Claim C4: the grid enumerator over 3 rows and 2 columns yields
exactly the six cells (0,0),(0,1),(1,0),(1,1),(2,0),(2,1) in row-major
order (x outer, y inner), each centered at project(origin,
east = y * cell_side, north = x * cell_side) where the cell side is
twice the buffer radius. -/
theorem claim_C4 (dest : GeoPoint → ℚ → ℚ → GeoPoint) (origin : GeoPoint)
    (buffer_radius : ℚ) :
    enumerate_cells dest origin buffer_radius 3 2 =
      [((0, 0), project dest origin 0 0),
       ((0, 1), project dest origin (2 * buffer_radius) 0),
       ((1, 0), project dest origin 0 (2 * buffer_radius)),
       ((1, 1), project dest origin (2 * buffer_radius) (2 * buffer_radius)),
       ((2, 0), project dest origin 0 (4 * buffer_radius)),
       ((2, 1), project dest origin (2 * buffer_radius) (4 * buffer_radius))] := by
  simp [enumerate_cells, distance_east, distance_north, List.range_succ]
  norm_num

/-- Claim C5: for every geodesic destination primitive, origin and
offsets, the projector is the composition of the single-bearing east
translation (bearing 90) from the origin followed by the single-bearing
north translation (bearing 0) from the intermediate point; and it is
not in general the north-then-east composition (witnessed by a
destination function whose east step depends on latitude). -/
theorem claim_C5 :
    (∀ (dest : GeoPoint → ℚ → ℚ → GeoPoint) (origin : GeoPoint) (e n : ℚ),
        project dest origin e n = dest (dest origin 90 e) 0 n) ∧
      ¬ (∀ (dest : GeoPoint → ℚ → ℚ → GeoPoint) (origin : GeoPoint) (e n : ℚ),
          project dest origin e n = project_north_then_east dest origin e n) := by
  refine ⟨fun dest origin e n => rfl, fun h => ?_⟩
  have h1 := h destModel ⟨0, 0⟩ 1 1
  norm_num [project, project_north_then_east, destModel] at h1

/-- Claim C6: for any geodesic destination primitive that leaves a point
unchanged when the travelled distance is zero, the projector satisfies
the identity law: project(origin, 0, 0) = origin. -/
theorem claim_C6 (dest : GeoPoint → ℚ → ℚ → GeoPoint)
    (hzero : ∀ p b, dest p b 0 = p) (origin : GeoPoint) :
    project dest origin 0 0 = origin := by
  simp [project, hzero]

/-- Witness for claim C6 at the concrete destination model and
origin (0, 0). -/
theorem claim_C6_witness : project destModel ⟨0, 0⟩ 0 0 = (⟨0, 0⟩ : GeoPoint) :=
  claim_C6 destModel (fun p b => by cases p; simp [destModel]) ⟨0, 0⟩

/-- Claim C7: store is idempotent: a second call with identical
arguments and payload returns the same path, leaves the filesystem
state unchanged (the directory create is idempotent and the write
overwrites), and the file at that path holds exactly the payload. -/
theorem claim_C7 (fs : FS) (x y latitude longitude buffer_radius scale : String)
    (payload : List ℕ) :
    (store (store fs x y latitude longitude buffer_radius scale payload).2
        x y latitude longitude buffer_radius scale payload).1 =
      (store fs x y latitude longitude buffer_radius scale payload).1 ∧
    (store (store fs x y latitude longitude buffer_radius scale payload).2
        x y latitude longitude buffer_radius scale payload).2 =
      (store fs x y latitude longitude buffer_radius scale payload).2 ∧
    ((store (store fs x y latitude longitude buffer_radius scale payload).2
        x y latitude longitude buffer_radius scale payload).2).lookup
      (store fs x y latitude longitude buffer_radius scale payload).1 = some payload := by
  refine ⟨rfl, ?_, ?_⟩
  · show ((((fs.makeDirsIfAbsent _).write _ _).makeDirsIfAbsent _).write _ _) = _
    have hmk : (((fs.makeDirsIfAbsent (out_folder buffer_radius scale)).write
        (output_path x y latitude longitude buffer_radius scale) payload).makeDirsIfAbsent
          (out_folder buffer_radius scale)) =
        ((fs.makeDirsIfAbsent (out_folder buffer_radius scale)).write
          (output_path x y latitude longitude buffer_radius scale) payload) := by
      rw [FS.makeDirsIfAbsent, if_pos]
      rw [FS_write_dirs]
      exact FS_mem_mkdir fs _
    rw [hmk, FS_write_write]
    rfl
  · show ((((fs.makeDirsIfAbsent _).write _ _).makeDirsIfAbsent _).write _ _).lookup _ = _
    have hmk : (((fs.makeDirsIfAbsent (out_folder buffer_radius scale)).write
        (output_path x y latitude longitude buffer_radius scale) payload).makeDirsIfAbsent
          (out_folder buffer_radius scale)) =
        ((fs.makeDirsIfAbsent (out_folder buffer_radius scale)).write
          (output_path x y latitude longitude buffer_radius scale) payload) := by
      rw [FS.makeDirsIfAbsent, if_pos]
      rw [FS_write_dirs]
      exact FS_mem_mkdir fs _
    rw [hmk, FS_write_write]
    exact FS_write_lookup _ _ _

/-- Claim C8: parsing a persisted base name
naip_(x)_(y)__(lat)_(lon).tif the way create_random_uav_images does
(split on underscore, take parts 1, 2, 4, and part 5 up to .tif)
recovers exactly the written x, y, latitude and longitude, provided the
renderings contain no underscore and the longitude no .tif substring. -/
theorem claim_C8 (x y latitude longitude : List Char)
    (hx : '_' ∉ x) (hy : '_' ∉ y) (hlat : '_' ∉ latitude) (hlon : '_' ∉ longitude)
    (htif : occursIn ".tif".toList longitude = false) :
    parse_tile_name (naip_filename x y latitude longitude) =
      some (x, y, latitude, longitude) := by
  unfold parse_tile_name
  rw [split_naip x y latitude longitude hx hy hlat hlon]
  simp only [List.getElem?_cons_succ, List.getElem?_cons_zero]
  rw [beforeFirst_tif longitude htif]

/-- Witness for claim C8 on the concrete tile name naip_2_5__1.0_2.0.tif. -/
theorem claim_C8_witness :
    parse_tile_name (naip_filename "2".toList "5".toList "1.0".toList "2.0".toList) =
      some ("2".toList, "5".toList, "1.0".toList, "2.0".toList) :=
  claim_C8 "2".toList "5".toList "1.0".toList "2.0".toList
    (by decide) (by decide) (by decide) (by decide) (by decide)

/-- Claim C9: with positive buffer radius, area height at least twice
the buffer radius and area length at least the buffer radius, the grid
loop enumerates floor(area_height/buffer_radius) rows and
floor(area_length/buffer_radius) columns of cells whose centers use
northward offsets spaced 2 * buffer_radius apart, the northernmost
enumerated center lying (rows - 1) * 2 * buffer_radius meters north of
the origin - nearly twice the configured extent. -/
theorem claim_C9 (dest : GeoPoint → ℚ → ℚ → GeoPoint) (origin : GeoPoint)
    (area_height area_length buffer_radius : ℚ) (hbr : 0 < buffer_radius)
    (hh : 2 * buffer_radius ≤ area_height) (hl : buffer_radius ≤ area_length) :
    2 ≤ num_rows area_height buffer_radius ∧
    (∀ x : ℕ, distance_north (x + 1) buffer_radius - distance_north x buffer_radius =
      2 * buffer_radius) ∧
    (enumerate_cells dest origin buffer_radius (num_rows area_height buffer_radius)
        (num_columns area_length buffer_radius)).length =
      num_rows area_height buffer_radius * num_columns area_length buffer_radius ∧
    distance_north (num_rows area_height buffer_radius - 1) buffer_radius =
      ((num_rows area_height buffer_radius : ℚ) - 1) * (2 * buffer_radius) ∧
    ((num_rows area_height buffer_radius - 1, 0),
        project dest origin (distance_east 0 buffer_radius)
          (distance_north (num_rows area_height buffer_radius - 1) buffer_radius)) ∈
      enumerate_cells dest origin buffer_radius (num_rows area_height buffer_radius)
        (num_columns area_length buffer_radius) ∧
    ∀ p ∈ enumerate_cells dest origin buffer_radius (num_rows area_height buffer_radius)
        (num_columns area_length buffer_radius),
      distance_north p.1.1 buffer_radius ≤
        ((num_rows area_height buffer_radius : ℚ) - 1) * (2 * buffer_radius) := by
  have hrows := two_le_num_rows area_height buffer_radius hbr hh
  have hcols := one_le_num_columns area_length buffer_radius hbr hl
  refine ⟨hrows, ?_, length_enumerate_cells dest origin buffer_radius _ _, ?_, ?_, ?_⟩
  · intro x
    simp only [distance_north]
    push_cast
    ring
  · simp only [distance_north]
    rw [Nat.cast_sub (by omega)]
    push_cast
    ring
  · rw [mem_enumerate_cells]
    exact ⟨by omega, by omega, rfl⟩
  · rintro ⟨⟨x, y⟩, c⟩ hp
    rw [mem_enumerate_cells] at hp
    obtain ⟨hx, hy, hc⟩ := hp
    simp only [distance_north]
    have hxq : (x : ℚ) ≤ (num_rows area_height buffer_radius : ℚ) - 1 := by
      have : (x : ℚ) + 1 ≤ (num_rows area_height buffer_radius : ℚ) := by
        exact_mod_cast Nat.succ_le_of_lt hx
      linarith
    nlinarith

/-- Claim C10: whenever scale differs from 0.6,
create_random_uav_images first creates the UAV output directory and
then terminates the process with exit code -1, without touching any
input file. -/
theorem claim_C10 (scale : ℚ) (h : scale ≠ 3 / 5) (scaleStr bufferRadiusStr : String)
    (files : List String) :
    create_random_uav_images scale scaleStr bufferRadiusStr files =
      [Effect.makeDirs (out_uav_folder bufferRadiusStr scaleStr),
       Effect.log ("For this task, please use scale=0.6"),
       Effect.exitProcess (-1)] := by
  simp [create_random_uav_images, h]

/-- Witness for claim C10 at scale 3 with one input file present. -/
theorem claim_C10_witness :
    create_random_uav_images 3 ("3") ("800") ["naip_0_0__1.0_2.0.tif"] =
      [Effect.makeDirs (out_uav_folder ("800") ("3")),
       Effect.log ("For this task, please use scale=0.6"),
       Effect.exitProcess (-1)] :=
  claim_C10 3 (by norm_num) ("3") ("800") ["naip_0_0__1.0_2.0.tif"]

/-- Witness for claim C9 at the configured 20000 x 20000 meter area with
buffer radius 2000. -/
theorem claim_C9_witness :
    2 ≤ num_rows 20000 2000 ∧
    (∀ x : ℕ, distance_north (x + 1) 2000 - distance_north x 2000 = 2 * 2000) ∧
    (enumerate_cells destModel ⟨0, 0⟩ 2000 (num_rows 20000 2000)
        (num_columns 20000 2000)).length =
      num_rows 20000 2000 * num_columns 20000 2000 ∧
    distance_north (num_rows 20000 2000 - 1) 2000 =
      ((num_rows 20000 2000 : ℚ) - 1) * (2 * 2000) ∧
    ((num_rows 20000 2000 - 1, 0),
        project destModel ⟨0, 0⟩ (distance_east 0 2000)
          (distance_north (num_rows 20000 2000 - 1) 2000)) ∈
      enumerate_cells destModel ⟨0, 0⟩ 2000 (num_rows 20000 2000)
        (num_columns 20000 2000) ∧
    ∀ p ∈ enumerate_cells destModel ⟨0, 0⟩ 2000 (num_rows 20000 2000)
        (num_columns 20000 2000),
      distance_north p.1.1 2000 ≤ ((num_rows 20000 2000 : ℚ) - 1) * (2 * 2000) :=
  claim_C9 destModel ⟨0, 0⟩ 20000 20000 2000 (by norm_num) (by norm_num) (by norm_num)
